import Mathlib

/-!
Shallow embedding of the transcoding fleet supervisor (Go backend) and proofs
about its specified behaviour.

The embedding follows the Go sources:
  * `internal/domain` — channel/status/user data model;
  * `internal/infrastructure/ffmpeg/process.go` — the process lifecycle
    controller (`Start`, `Stop`, `Restart`, `watchProcess`, `buildArgs`,
    `getProcessStats`, `GetProcess`, `GetAllProcesses`);
  * `internal/application/channel_service.go` — the control facade
    (`StartChannel`, `StopChannel`, `RestartChannel`, `batchProcess`);
  * `internal/application` settings service and `SettingsHandler.Update`;
  * `internal/interfaces/http/routes.go` and `middleware/auth.go` — the
    role-gated route table.

Modelling conventions: UUIDs are `Nat`; the in-memory process map is an
association list keyed by channel id; wall-clock instants are milliseconds
(`Nat`); Go `float64` quantities that claims never compute with are carried as
`Rat` (CPU percentages, fps) or as their printed form (`opacityStr` for the
logo opacity that is only ever formatted into the ffmpeg filter string);
filesystem and OS effects (directory creation/removal, spawning, sleeping,
status persistence) are recorded as an explicit event trace; oracles for the
environment (file existence, GPU/numactl availability, spawn success, the
settings row) live in `Env`.
-/

namespace Transcode

/-- Channel status, from `domain.ChannelStatus` (stopped/starting/running/error/stopping). -/
inductive ChannelStatus
  | stopped
  | starting
  | running
  | error
  | stopping
deriving DecidableEq, Repr

/-- Logo overlay configuration, from `domain.LogoConfig`.  `opacityStr` is the
`fmt.Sprintf %f` rendering of the Go `float64` opacity; no claim computes with
the opacity, only formats it into the filter graph. -/
structure LogoConfig where
  path : String
  x : Int
  y : Int
  width : Int
  height : Int
  opacityStr : String
deriving DecidableEq, Repr

/-- Output encoding configuration, from `domain.OutputConfig`. -/
structure OutputConfig where
  codec : String
  bitrate : String
  resolution : String
  preset : String
  profile : String
deriving DecidableEq, Repr

/-- Channel record, from `domain.Channel` (timestamps and the derived
`OutputURL` are not carried: no claim mentions them). -/
structure Channel where
  id : Nat
  name : String
  sourceURL : String
  logo : Option LogoConfig
  outputConfig : Option OutputConfig
  status : ChannelStatus
  autoRestart : Bool
deriving DecidableEq, Repr

/-- The decoded `system` settings row (`map[string]interface{}` in Go).  A
field is `none` when the key is absent or its value has the wrong dynamic
type, matching the `val.(T)` type switches in the source. -/
structure SettingsDoc where
  maxChannels : Option Int
  segmentTime : Option Int
  playlistSize : Option Int
  logRetention : Option Int
  defaultCRF : Option Int
  threadsPerProcess : Option Int
  defaultPreset : Option String
  defaultBitrate : Option String
  defaultResolution : Option String
  defaultProfile : Option String
  defaultMaxrate : Option String
  defaultBufsize : Option String
deriving DecidableEq, Repr

/-- FFmpeg configuration, from `ffmpeg.Config`. -/
structure Config where
  binaryPath : String
  segmentTime : Int
  playlistSize : Int
  defaultPreset : String
  defaultBitrate : String
deriving DecidableEq, Repr

/-- Immutable fields of `ffmpeg.ProcessManager` (config and paths;
`maxThreadsPerProcess` is computed at construction and never read by
`buildArgs`, mirroring the source). -/
structure PMConst where
  config : Config
  hlsPath : String
  logoPath : String
  maxThreadsPerProcess : Nat
deriving DecidableEq, Repr

/-- Environment oracles: the results the process manager observes from the
outside world during one operation.  `settingsDb` is the decoded settings row
(`none` = `GetSystemSettings` returned an error); `spawnOk` is whether
`cmd.StderrPipe`/`cmd.Start` succeed (binary present, permissions fine);
`callbackSet` is whether a status callback was registered (it is, in
`main.go`). -/
structure Env where
  settingsDb : Option SettingsDoc
  fileExists : String → Bool
  nvidiaAvailable : Bool
  numactlAvailable : Bool
  spawnOk : Bool
  callbackSet : Bool
  numCPU : Nat

/-- Go `strings.HasSuffix` (character-list implementation, so the kernel can
evaluate it on concrete inputs). -/
def hasSuffixStr (s suf : String) : Bool :=
  suf.data.isSuffixOf s.data

/-- Go `strings.TrimSuffix`. -/
def trimSuffixStr (s suf : String) : String :=
  if hasSuffixStr s suf then String.mk (s.data.take (s.data.length - suf.data.length))
  else s

/-- Go `strings.TrimPrefix`. -/
def trimPrefixStr (s pre : String) : String :=
  if pre.data.isPrefixOf s.data then String.mk (s.data.drop pre.data.length)
  else s

/-- `filepath.IsAbs`: the path starts with a slash. -/
def isAbsPath (s : String) : Bool :=
  match s.data with
  | [] => false
  | c :: _ => c = '/'

/-- Decimal-digit parse of a character list (the core of `strconv.Atoi`). -/
def natOfDigits? (cs : List Char) : Option Nat :=
  if cs = [] then none
  else if cs.all (fun c => c.isDigit) then
    some (cs.foldl (fun acc c => acc * 10 + (c.toNat - 48)) 0)
  else none

/-- Go `strconv.Atoi`: optional sign followed by decimal digits. -/
def intOfString? (s : String) : Option Int :=
  match s.data with
  | '-' :: rest => (natOfDigits? rest).map (fun n => -(n : Int))
  | '+' :: rest => (natOfDigits? rest).map (fun n => (n : Int))
  | cs => (natOfDigits? cs).map (fun n => (n : Int))

/-- Go `strings.Split` with a one-character separator. -/
def splitOnChar (s : String) (sep : Char) : List String :=
  (s.data.splitOn sep).map String.mk

/-- Take a string-valued settings entry if present and nonempty, else the
default — the `if v, ok := val.(string); ok && v != ""` pattern. -/
def strOr (v : Option String) (d : String) : String :=
  match v with
  | some s => if s ≠ "" then s else d
  | none => d

/-- Take a numeric settings entry if present, else the default — the
`float64`/`int` type-switch pattern in the source accepts any number. -/
def intOr (v : Option Int) (d : Int) : Int :=
  match v with
  | some n => n
  | none => d

/-- Output directory for a channel: `filepath.Join(hlsPath, channelID)`. -/
def outputDirOf (hlsPath : String) (id : Nat) : String :=
  hlsPath ++ "/" ++ toString id

/-- Logo path resolution inside `buildArgs`: absolute paths are used as-is,
relative ones are joined to the manager's logo directory. -/
def resolveLogoPath (pm : PMConst) (l : LogoConfig) : String :=
  if isAbsPath l.path then l.path else pm.logoPath ++ "/" ++ l.path

set_option linter.unusedVariables false in
/-- `buildArgs` from `process.go`: the encoder argument builder, a pure
function of the channel, the output directory, the active process count
(received but never read, as in the source) and the environment; returns the
ordered ffmpeg argument vector or a structured error.  `filepath.Join` is
modelled as `/`-concatenation.  (The linter is silenced because the Go
source itself computes a `bitrate` value it never reads.) -/
def buildArgs (pm : PMConst) (env : Env) (channel : Channel) (outDir : String)
    (_activeProcessCount : Nat) : Except String (List String) :=
  let args : List String :=
    ["-hide_banner",
     "-loglevel", "warning",
     "-progress", "pipe:2",
     "-reconnect", "1",
     "-reconnect_streamed", "1",
     "-reconnect_delay_max", "2",
     "-reconnect_at_eof", "1",
     "-timeout", "5000000",
     "-fflags", "+genpts+discardcorrupt+nobuffer",
     "-analyzeduration", "2000000",
     "-probesize", "2000000",
     "-thread_queue_size", "512",
     "-i", channel.sourceURL]
  let useNVENC := env.nvidiaAvailable
  -- config defaults, overridden by database settings, overridden by channel config
  let preset := pm.config.defaultPreset
  let bitrate := pm.config.defaultBitrate
  let segmentTime := pm.config.segmentTime
  let playlistSize := pm.config.playlistSize
  let resolution := "1920x1080"
  let profile := "high"
  let preset := match env.settingsDb with
    | some db => strOr db.defaultPreset preset
    | none => preset
  let bitrate := match env.settingsDb with
    | some db => strOr db.defaultBitrate bitrate
    | none => bitrate
  let segmentTime := match env.settingsDb with
    | some db => intOr db.segmentTime segmentTime
    | none => segmentTime
  let playlistSize := match env.settingsDb with
    | some db => intOr db.playlistSize playlistSize
    | none => playlistSize
  let resolution := match env.settingsDb with
    | some db => strOr db.defaultResolution resolution
    | none => resolution
  let profile := match env.settingsDb with
    | some db => strOr db.defaultProfile profile
    | none => profile
  let preset := match channel.outputConfig with
    | some oc => if oc.preset ≠ "" then oc.preset else preset
    | none => preset
  let bitrate := match channel.outputConfig with
    | some oc => if oc.bitrate ≠ "" then oc.bitrate else bitrate
    | none => bitrate
  let resolution := match channel.outputConfig with
    | some oc => if oc.resolution ≠ "" then oc.resolution else resolution
    | none => resolution
  let profile := match channel.outputConfig with
    | some oc => if oc.profile ≠ "" then oc.profile else profile
    | none => profile
  -- parse "WxH"; unparsed components stay 0, then both default to 1920x1080
  let resParts := splitOnChar resolution 'x'
  let wh : Int × Int :=
    match resParts with
    | [a, b] => ((intOfString? a).getD 0, (intOfString? b).getD 0)
    | _ => (0, 0)
  let outputWidth := if wh.1 = 0 ∨ wh.2 = 0 then (1920 : Int) else wh.1
  let outputHeight := if wh.1 = 0 ∨ wh.2 = 0 then (1080 : Int) else wh.2
  -- logo: second input plus overlay filter graph; deterministic error when
  -- the configured logo file is absent (no filesystem mutation here)
  let logoStep : Except String (List String × List String) :=
    match channel.logo with
    | some l =>
      if l.path ≠ "" then
        let logoFile := resolveLogoPath pm l
        if env.fileExists logoFile then
          Except.ok (args ++ ["-i", logoFile],
            ["[0:v]scale=" ++ toString outputWidth ++ ":" ++ toString outputHeight
              ++ "[scaled]",
             "[1:v]scale=" ++ toString l.width ++ ":" ++ toString l.height
              ++ ",format=rgba,colorchannelmixer=aa=" ++ l.opacityStr ++ "[logo]",
             "[scaled][logo]overlay=" ++ toString l.x ++ ":" ++ toString l.y
              ++ "[vout]"])
        else
          Except.error ("logo file not found: " ++ logoFile)
      else
        Except.ok (args,
          ["[0:v]scale=" ++ toString outputWidth ++ ":" ++ toString outputHeight
            ++ "[vout]"])
    | none =>
      Except.ok (args,
        ["[0:v]scale=" ++ toString outputWidth ++ ":" ++ toString outputHeight
          ++ "[vout]"])
  match logoStep with
  | Except.error e => Except.error e
  | Except.ok (args, videoFilters) =>
    let args := if videoFilters.length > 0 then
        args ++ ["-filter_complex", String.intercalate ";" videoFilters, "-map", "[vout]"]
      else
        args ++ ["-map", "0:v"]
    let args := args ++ ["-map", "0:a"]
    -- encoding parameters: defaults, then database settings
    let crf := match env.settingsDb with
      | some db => intOr db.defaultCRF 23
      | none => (23 : Int)
    let maxrate := match env.settingsDb with
      | some db => strOr db.defaultMaxrate "5000k"
      | none => "5000k"
    let bufsize := match env.settingsDb with
      | some db => strOr db.defaultBufsize "10000k"
      | none => "10000k"
    let gopSize := segmentTime * 30
    -- channel bitrate overrides maxrate
    let maxrate := match channel.outputConfig with
      | some oc => if oc.bitrate ≠ "" then oc.bitrate else maxrate
      | none => maxrate
    -- derive bufsize = 2 x maxrate when bufsize was left at its default
    let bufsize :=
      if bufsize = "10000k" ∧ maxrate ≠ "" then
        let maxrateNum := trimSuffixStr maxrate "k"
        let isMB := hasSuffixStr maxrate "M"
        let maxrateNum := if isMB then trimSuffixStr maxrateNum "M" else maxrateNum
        match intOfString? maxrateNum with
        | some v => if isMB then toString (v * 2) ++ "M" else toString (v * 2) ++ "k"
        | none => bufsize
      else bufsize
    let threadCount := match env.settingsDb with
      | some db =>
        match db.threadsPerProcess with
        | some v => if v > 0 then toString v else "0"
        | none => "0"
      | none => "0"
    let args := if useNVENC then
        args ++
          ["-c:v", "h264_nvenc",
           "-preset", "p4",
           "-tune", "ull",
           "-rc", "vbr",
           "-cq", toString crf,
           "-maxrate", maxrate,
           "-bufsize", bufsize,
           "-profile:v", profile,
           "-level", "4.1",
           "-pix_fmt", "yuv420p",
           "-g", toString gopSize,
           "-keyint_min", toString (Int.tdiv gopSize 2),
           "-force_key_frames", "expr:gte(t,n_forced*" ++ toString segmentTime ++ ")",
           "-bf", "0",
           "-gpu", "any"]
      else
        args ++
          ["-c:v", "libx264",
           "-preset", preset,
           "-tune", "zerolatency",
           "-crf", toString crf,
           "-maxrate", maxrate,
           "-bufsize", bufsize,
           "-profile:v", profile,
           "-level", "4.1",
           "-pix_fmt", "yuv420p",
           "-g", toString gopSize,
           "-keyint_min", toString (Int.tdiv gopSize 2),
           "-sc_threshold", "0",
           "-force_key_frames", "expr:gte(t,n_forced*" ++ toString segmentTime ++ ")",
           "-threads", threadCount,
           "-x264opts", "nal-hrd=cbr:force-cfr=1",
           "-bf", "0"]
    let args := args ++
      ["-c:a", "aac",
       "-b:a", "128k",
       "-ar", "48000",
       "-ac", "2"]
    let args := args ++
      ["-f", "hls",
       "-hls_time", toString segmentTime,
       "-hls_list_size", toString playlistSize,
       "-hls_flags", "delete_segments+independent_segments+program_date_time",
       "-hls_delete_threshold", "1",
       "-hls_segment_filename", outDir ++ "/segment_%05d.ts",
       "-hls_segment_type", "mpegts",
       "-start_number", "0",
       "-avoid_negative_ts", "make_zero",
       "-max_muxing_queue_size", "1024",
       "-muxdelay", "0",
       "-muxpreload", "0",
       outDir ++ "/index.m3u8"]
    Except.ok args

/-- One `/proc/[pid]/stat` CPU-time sample (utime/stime/cutime/cstime jiffies). -/
structure ProcStatSample where
  utime : Int
  stime : Int
  cutime : Int
  cstime : Int
deriving DecidableEq, Repr

/-- Last parsed progress metrics of a live process, from `domain.ProcessMetrics`
(the fields `GetProcess` reads; `fps` is the Go `float64` carried as `Rat`). -/
structure ProcMetrics where
  frame : Int
  fps : Rat
  bitrate : String
  dropFrames : Int
  speed : String
deriving DecidableEq, Repr

/-- Zero value of `ProcessMetrics`, as allocated at spawn (`&domain.ProcessMetrics{}`). -/
def ProcMetrics.initial : ProcMetrics :=
  { frame := 0, fps := 0, bitrate := "", dropFrames := 0, speed := "" }

/-- In-memory record of a live encoder child, from `ffmpeg.Process`.
`lastCPUStat` is `none` until the first stats sample (the zero `time.Time`
check in the source); log ring buffer is not carried (no claim reads it). -/
structure Proc where
  channelID : Nat
  channel : Channel
  pid : Nat
  startedAtMs : Nat
  metrics : ProcMetrics
  lastCPUStat : Option (ProcStatSample × Rat)
deriving DecidableEq, Repr

/-- Mutable state of `ffmpeg.ProcessManager`: the process table (Go map keyed
by channel id, modelled as an association list) and the NUMA round-robin
counter. -/
structure MState where
  processes : List (Nat × Proc)
  numaNodeCount : Nat
  numaNodeCounter : Nat
deriving DecidableEq, Repr

/-- The empty manager state with a given NUMA node count (`NewProcessManager`). -/
def MState.initial (numaNodes : Nat) : MState :=
  { processes := [], numaNodeCount := if numaNodes = 0 then 1 else numaNodes,
    numaNodeCounter := 0 }

/-- Map lookup `m.processes[channelID]`. -/
def lookupP (id : Nat) : List (Nat × Proc) → Option Proc
  | [] => none
  | (k, v) :: rest => if k = id then some v else lookupP id rest

/-- Map removal `delete(m.processes, channelID)`. -/
def removeP (id : Nat) (l : List (Nat × Proc)) : List (Nat × Proc) :=
  l.filter (fun kv => kv.1 ≠ id)

/-- `getNextNUMANode`: round-robin node choice under the NUMA mutex. -/
def getNextNUMANode (st : MState) : Nat × MState :=
  if st.numaNodeCount ≤ 1 then (0, st)
  else (st.numaNodeCounter % st.numaNodeCount,
        { st with numaNodeCounter := st.numaNodeCounter + 1 })

/-- Externally observable effects of the lifecycle controller, in program
order: output-directory creation (`os.MkdirAll`), child spawn (`cmd.Start`),
sleeps, termination signals to the process group, directory wipes
(`os.RemoveAll`), and status persistence through the status callback. -/
inductive Event
  | mkOutputDir (id : Nat)
  | spawn (id : Nat)
  | sleepMs (n : Nat)
  | signalGroup (id : Nat)
  | wipeDir (id : Nat)
  | persistStatus (id : Nat) (s : ChannelStatus)
deriving DecidableEq, Repr

/-- The `Process` record built at spawn time in `Start`: the channel
snapshot, the OS pid, the spawn instant, zeroed metrics, empty CPU sample. -/
def newProc (ch : Channel) (pid : Nat) (nowMs : Nat) : Proc :=
  { channelID := ch.id, channel := ch, pid := pid, startedAtMs := nowMs,
    metrics := ProcMetrics.initial, lastCPUStat := none }

/-- The NUMA placement step of `Start`: when more than one node is present
and numactl is available, the invocation is wrapped and the round-robin
counter advances. -/
def numaSelect (env : Env) (st : MState) : MState :=
  if st.numaNodeCount > 1 ∧ env.numactlAvailable then (getNextNUMANode st).2
  else st

/-- The spawn step of `Start` (`cmd.Start` and the table insert): on success
the process is recorded; on failure the table is untouched and the error
returned. -/
def startSpawn (env : Env) (ch : Channel) (pid : Nat) (nowMs : Nat)
    (st : MState) : MState × List Event × Except String Unit :=
  if env.spawnOk then
    ({ st with processes := (ch.id, newProc ch pid nowMs) :: st.processes },
     [Event.mkOutputDir ch.id, Event.spawn ch.id], Except.ok ())
  else
    (st, [Event.mkOutputDir ch.id], Except.error "failed to start FFmpeg")

/-- `ProcessManager.Start`: under the supervisor lock, reject when a process
for the channel exists; create the output directory; build the argument
vector (propagating its errors); choose NUMA placement; spawn; insert the
`Process` into the table.  `pid` and `nowMs` are the OS-assigned pid and the
spawn instant. -/
def startM (pm : PMConst) (env : Env) (ch : Channel) (pid : Nat) (nowMs : Nat)
    (st : MState) : MState × List Event × Except String Unit :=
  if (lookupP ch.id st.processes).isSome then
    (st, [], Except.error ("channel " ++ toString ch.id ++ " is already running"))
  else
    match buildArgs pm env ch (outputDirOf pm.hlsPath ch.id) st.processes.length with
    | Except.error e =>
      (st, [Event.mkOutputDir ch.id],
       Except.error ("failed to build FFmpeg args: " ++ e))
    | Except.ok _args => startSpawn env ch pid nowMs (numaSelect env st)

/-- `ProcessManager.Stop`: remove the entry from the table first (so the
watcher sees an explicit stop), signal the process group, wait, and wipe the
output directory; when the channel is not in the table, still wipe the stale
directory.  Always returns nil. -/
def stopM (id : Nat) (st : MState) : MState × List Event × Except String Unit :=
  match lookupP id st.processes with
  | none => (st, [Event.wipeDir id], Except.ok ())
  | some _ =>
    ({ st with processes := removeP id st.processes },
     [Event.signalGroup id, Event.wipeDir id], Except.ok ())

/-- `ProcessManager.Restart`: fail when the channel is not in the table;
otherwise Stop, sleep 1 s, Start with the remembered channel snapshot. -/
def restartM (pm : PMConst) (env : Env) (id : Nat) (pid : Nat) (nowMs : Nat)
    (st : MState) : MState × List Event × Except String Unit :=
  match lookupP id st.processes with
  | none => (st, [], Except.error ("channel " ++ toString id ++ " is not running"))
  | some p =>
    let s := stopM id st
    match s.2.2 with
    | Except.error e => (s.1, s.2.1, Except.error e)
    | Except.ok _ =>
      let r := startM pm env p.channel pid nowMs s.1
      (r.1, s.2.1 ++ [Event.sleepMs 1000] ++ r.2.1, r.2.2)

/-- Operations other goroutines may perform on the shared process table while
the watcher sleeps (used to model the re-check after the 2 s restart pause). -/
inductive ExtOp
  | extStart (ch : Channel) (pid : Nat) (nowMs : Nat)
  | extStop (id : Nat)

/-- Apply a concurrent operation to the manager state (state effect only). -/
def applyExt (pm : PMConst) (env : Env) (st : MState) : ExtOp → MState
  | ExtOp.extStart ch pid nowMs => (startM pm env ch pid nowMs st).1
  | ExtOp.extStop id => (stopM id st).1

/-- `watchProcess`: runs when the child exits.  Reads whether the entry is
still in the table (an absent entry means an explicit Stop was in flight) and
removes it; a run time below 10 s is failed-to-start (wipe, persist `stopped`,
never restart); otherwise, with auto-restart on, sleep 2 s, apply any
concurrent operations, re-check the table, and either skip the restart (entry
absent) or call Start again, persisting `error` and wiping on failure.
`uptimeSec` is the child's run time; `intervening` are the table operations
performed by other goroutines during the 2 s sleep.

`watchRestartStep` is the tail of the watcher after the 2 s sleep: re-check
the table and either skip the restart (entry absent) or call Start again,
wiping and persisting `error` when that Start fails. -/
def watchRestartStep (pm : PMConst) (env : Env) (p : Proc) (pid : Nat)
    (nowMs : Nat) (stMid : MState) : MState × List Event :=
  if !(lookupP p.channelID stMid.processes).isSome then
    (stMid, [Event.sleepMs 2000, Event.wipeDir p.channelID])
  else
    let r := startM pm env p.channel pid nowMs stMid
    match r.2.2 with
    | Except.error _ =>
      (r.1, [Event.sleepMs 2000] ++ r.2.1 ++ [Event.wipeDir p.channelID] ++
        (if env.callbackSet then
          [Event.persistStatus p.channelID ChannelStatus.error]
        else []))
    | Except.ok _ => (r.1, [Event.sleepMs 2000] ++ r.2.1)

/-- `watchProcess` proper: see the comment on `watchRestartStep` above. -/
def watchProcessM (pm : PMConst) (env : Env) (st : MState) (p : Proc)
    (uptimeSec : Nat) (pid : Nat) (nowMs : Nat) (intervening : List ExtOp) :
    MState × List Event :=
  let stillInMap := (lookupP p.channelID st.processes).isSome
  let st1 := if stillInMap then
      { st with processes := removeP p.channelID st.processes }
    else st
  let autoRestart := stillInMap && p.channel.autoRestart
  if !stillInMap then
    (st1, [Event.wipeDir p.channelID])
  else if uptimeSec < 10 then
    (st1, [Event.wipeDir p.channelID] ++
      (if env.callbackSet then
        [Event.persistStatus p.channelID ChannelStatus.stopped]
      else []))
  else if autoRestart then
    watchRestartStep pm env p pid nowMs (intervening.foldl (applyExt pm env) st1)
  else
    (st1, [Event.wipeDir p.channelID])

/-- `IsRunning`: the channel has an entry in the process table. -/
def isRunningM (id : Nat) (st : MState) : Bool :=
  (lookupP id st.processes).isSome

/-- Decimal-string parse standing for Go `strconv.ParseFloat` (plain
`[-]digits[.digits]` forms, which is all the encoder progress stream emits);
`none` on malformed input. -/
def parseFloatQ (s : String) : Option Rat :=
  let neg : Bool :=
    match s.data with
    | c :: _ => c = '-'
    | [] => false
  let sgn : Rat := if neg then -1 else 1
  let body : String := if neg then String.mk (s.data.drop 1) else s
  match splitOnChar body '.' with
  | [a] => (natOfDigits? a.data).map (fun n => sgn * (n : Rat))
  | [a, b] =>
    match natOfDigits? a.data, natOfDigits? b.data with
    | some n, some f =>
      some (sgn * ((n : Rat) + (f : Rat) / ((10 : Rat) ^ b.data.length)))
    | _, _ => none
  | _ => none

/-- `parseSpeed`: strip the trailing `x` and parse; 0 on failure (the ignored
error of `strconv.ParseFloat`). -/
def parseSpeed (speed : String) : Rat :=
  ((parseFloatQ (trimSuffixStr speed "x")).getD 0)

/-- The bitrate-string parse inside `GetProcess`/`GetAllProcesses`: strip a
`k` then an `M` suffix and `strconv.Atoi`; 0 when empty or unparsable. -/
def parseBitrateKbps (bitrate : String) : Int :=
  if bitrate ≠ "" then
    let s := trimSuffixStr bitrate "k"
    let s := trimSuffixStr s "M"
    match intOfString? s with
    | some v => v
    | none => 0
  else 0

/-- `getProcessStats`: sample per-PID CPU and RSS from `/proc`.  Inputs are
the parsed `/proc/[pid]/stat` jiffies (`none` = read failed), the parsed
`VmRSS` kilobytes from `/proc/[pid]/status` (`none` = read/parse failed), the
previous sample and its instant, and the current instant in seconds.
Returns (cpu percent, memory bytes, updated last sample).  When memory reads
as 0 the fixed 100 MiB placeholder is substituted. -/
def getProcessStats (stat : Option ProcStatSample) (vmRssKB : Option Int)
    (prev : Option (ProcStatSample × Rat)) (now : Rat) (numCPU : Nat) :
    Rat × Int × Option (ProcStatSample × Rat) :=
  let clockTicks : Rat := 100
  let cpuAndLast : Rat × Option (ProcStatSample × Rat) :=
    match stat with
    | none => (0, prev)
    | some cur =>
      let cpu : Rat :=
        match prev with
        | none => 0
        | some pv =>
          let totalTime : Int :=
            (cur.utime + cur.stime + cur.cutime + cur.cstime) -
              (pv.1.utime + pv.1.stime + pv.1.cutime + pv.1.cstime)
          let elapsed := now - pv.2
          if 0 < elapsed then
            let processTimeSeconds : Rat := (totalTime : Rat) / clockTicks
            let u := processTimeSeconds / elapsed * 100
            if 0 < numCPU then u / (numCPU : Rat) else u
          else 0
      (cpu, some (cur, now))
  let memoryUsage : Int :=
    match vmRssKB with
    | some v => v * 1024
    | none => 0
  let cpuUsage := if cpuAndLast.1 = 0 then 0 else cpuAndLast.1
  let memoryUsage := if memoryUsage = 0 then 100 * 1024 * 1024 else memoryUsage
  (cpuUsage, memoryUsage, cpuAndLast.2)

/-- A metrics record returned to callers, from `domain.TranscoderProcess`. -/
structure TranscoderProcess where
  channelID : Nat
  pid : Nat
  startedAtMs : Nat
  cpuUsage : Rat
  memoryUsage : Int
  inputBitrate : Int
  outputBitrate : Int
  droppedFrames : Int
  fps : Rat
  speed : Rat
  uptimeSec : Int
deriving DecidableEq, Repr

/-- The record both `GetProcess` and `GetAllProcesses` build for one live
process from its snapshot and a fresh stats sample. -/
def processRecord (id : Nat) (p : Proc) (stat : Option ProcStatSample)
    (vmRssKB : Option Int) (now : Rat) (nowMs : Nat) (numCPU : Nat) :
    TranscoderProcess :=
  let s := getProcessStats stat vmRssKB p.lastCPUStat now numCPU
  { channelID := id, pid := p.pid, startedAtMs := p.startedAtMs,
    cpuUsage := s.1, memoryUsage := s.2.1, inputBitrate := 0,
    outputBitrate := parseBitrateKbps p.metrics.bitrate,
    droppedFrames := p.metrics.dropFrames, fps := p.metrics.fps,
    speed := parseSpeed p.metrics.speed,
    uptimeSec := Int.tdiv ((nowMs : Int) - (p.startedAtMs : Int)) 1000 }

/-- `GetProcess`: metrics fetch for one channel; error when not running. -/
def getProcessM (st : MState) (id : Nat) (stat : Option ProcStatSample)
    (vmRssKB : Option Int) (now : Rat) (nowMs : Nat) (numCPU : Nat) :
    Except String TranscoderProcess :=
  match lookupP id st.processes with
  | none => Except.error ("channel " ++ toString id ++ " is not running")
  | some p => Except.ok (processRecord id p stat vmRssKB now nowMs numCPU)

/-- `GetAllProcesses`: metrics for every entry of the process table, with
per-channel `/proc` read results. -/
def getAllProcessesM (st : MState) (statOf : Nat → Option ProcStatSample)
    (vmRssOf : Nat → Option Int) (now : Rat) (nowMs : Nat) (numCPU : Nat) :
    List TranscoderProcess :=
  st.processes.map (fun kv =>
    processRecord kv.1 kv.2 (statOf kv.1) (vmRssOf kv.1) now nowMs numCPU)

/-- Combined state seen by `ChannelService`: the persistent channel rows and
the transcoder's in-memory state. -/
structure SState where
  repo : List Channel
  mgr : MState
deriving DecidableEq, Repr

/-- `ChannelRepository.GetByID`: row lookup; `sql.ErrNoRows` when absent. -/
def repoGetByID (id : Nat) (repo : List Channel) : Option Channel :=
  repo.find? (fun c => c.id = id)

/-- `ChannelRepository.UpdateStatus`: `UPDATE channels SET status = ... WHERE
id = ...`; matching zero rows is not an error. -/
def repoUpdateStatus (id : Nat) (s : ChannelStatus) (repo : List Channel) :
    List Channel :=
  repo.map (fun c => if c.id = id then { c with status := s } else c)

/-- `ChannelRepository.Delete`: `DELETE FROM channels WHERE id = ...`. -/
def repoDelete (id : Nat) (repo : List Channel) : List Channel :=
  repo.filter (fun c => c.id ≠ id)

/-- `ChannelService.StartChannel`: 404 when the row is missing; when the
transcoder already runs the channel, re-assert status `running` and succeed;
otherwise persist `starting`, call the supervisor's Start, and persist
`running` on success or `error` on failure. -/
def startChannelS (pm : PMConst) (env : Env) (id : Nat) (pid : Nat)
    (nowMs : Nat) (st : SState) : SState × List Event × Except String Unit :=
  match repoGetByID id st.repo with
  | none => (st, [], Except.error "channel not found")
  | some ch =>
    if isRunningM id st.mgr then
      ({ st with repo := repoUpdateStatus id ChannelStatus.running st.repo },
       [], Except.ok ())
    else
      let st1 : SState :=
        { st with repo := repoUpdateStatus id ChannelStatus.starting st.repo }
      let r := startM pm env ch pid nowMs st1.mgr
      match r.2.2 with
      | Except.error e =>
        ({ repo := repoUpdateStatus id ChannelStatus.error st1.repo, mgr := r.1 },
         r.2.1, Except.error e)
      | Except.ok _ =>
        ({ repo := repoUpdateStatus id ChannelStatus.running st1.repo, mgr := r.1 },
         r.2.1, Except.ok ())

/-- `ChannelService.StopChannel`: 404 when the row is missing; when the
transcoder is not running the channel, re-assert status `stopped` and
succeed; otherwise persist `stopping`, call the supervisor's Stop, and
persist `stopped` (or `error` had Stop failed — it never does). -/
def stopChannelS (id : Nat) (st : SState) : SState × List Event × Except String Unit :=
  match repoGetByID id st.repo with
  | none => (st, [], Except.error "channel not found")
  | some _ =>
    if !isRunningM id st.mgr then
      ({ st with repo := repoUpdateStatus id ChannelStatus.stopped st.repo },
       [], Except.ok ())
    else
      let st1 : SState :=
        { st with repo := repoUpdateStatus id ChannelStatus.stopping st.repo }
      let r := stopM id st1.mgr
      match r.2.2 with
      | Except.error e =>
        ({ repo := repoUpdateStatus id ChannelStatus.error st1.repo, mgr := r.1 },
         r.2.1, Except.error e)
      | Except.ok _ =>
        ({ repo := repoUpdateStatus id ChannelStatus.stopped st1.repo, mgr := r.1 },
         r.2.1, Except.ok ())

/-- `ChannelService.RestartChannel`: 404 when the row is missing; when the
channel was running, Stop (persisting `error` if that failed), sleep 500 ms,
then Start; when it was not running, just Start. -/
def restartChannelS (pm : PMConst) (env : Env) (id : Nat) (pid : Nat)
    (nowMs : Nat) (st : SState) : SState × List Event × Except String Unit :=
  match repoGetByID id st.repo with
  | none => (st, [], Except.error "channel not found")
  | some _ =>
    let wasRunning := isRunningM id st.mgr
    if wasRunning then
      let s := stopChannelS id st
      let st2 : SState :=
        match s.2.2 with
        | Except.error _ =>
          { s.1 with repo := repoUpdateStatus id ChannelStatus.error s.1.repo }
        | Except.ok _ => s.1
      let r := startChannelS pm env id pid nowMs st2
      (r.1, s.2.1 ++ [Event.sleepMs 500] ++ r.2.1, r.2.2)
    else
      startChannelS pm env id pid nowMs st

/-- `ChannelService.DeleteChannel`: 404 when the row is missing; best-effort
Stop with a 200 ms grace when running; then delete the row. -/
def deleteChannelS (id : Nat) (st : SState) : SState × List Event × Except String Unit :=
  match repoGetByID id st.repo with
  | none => (st, [], Except.error "channel not found")
  | some _ =>
    if isRunningM id st.mgr then
      let r := stopM id st.mgr
      ({ repo := repoDelete id st.repo, mgr := r.1 },
       r.2.1 ++ [Event.sleepMs 200], Except.ok ())
    else
      ({ st with repo := repoDelete id st.repo }, [], Except.ok ())

/-- Result of a batch operation, from `application.BatchResult`:
ids that succeeded and (id, error message) pairs that failed. -/
structure BatchResult where
  success : List Nat
  failed : List (Nat × String)
deriving DecidableEq, Repr

/-- One step of the result-collection loop of `batchProcess`: a completed
job is appended to `failed` or `success`. -/
def collectStep (acc : BatchResult) (jr : Nat × Except String Unit) : BatchResult :=
  match jr.2 with
  | Except.error e => { acc with failed := acc.failed ++ [(jr.1, e)] }
  | Except.ok _ => { acc with success := acc.success ++ [jr.1] }

/-- The result-collection loop of `batchProcess`: each completed job is
appended to `success` or `failed` in the order results arrive. -/
def collectResults (results : List (Nat × Except String Unit)) : BatchResult :=
  results.foldl collectStep { success := [], failed := [] }

/-- One iteration of the worker loop: run the per-channel operation and
record the (id, result) pair. -/
def jobStep (f : Nat → SState → SState × Except String Unit)
    (acc : SState × List (Nat × Except String Unit)) (id : Nat) :
    SState × List (Nat × Except String Unit) :=
  let r := f id acc.1
  (r.1, acc.2 ++ [(id, r.2)])

/-- `ChannelService.batchProcess`: fan the ids into a worker pool and collect
per-id results in completion order.  The worker pool's nondeterministic
scheduling is modelled by `comp`, the order in which the jobs complete (a
permutation of the input ids); each job runs the per-channel operation `f`
against the state left by the previously completed jobs. -/
def batchProcessS (f : Nat → SState → SState × Except String Unit)
    (comp : List Nat) (st : SState) : SState × BatchResult :=
  let run := comp.foldl (jobStep f) (st, [])
  (run.1, collectResults run.2)

/-- Per-id operation used by `BatchStartChannels` (events dropped: the batch
result only carries success/error). -/
def batchStartOp (pm : PMConst) (env : Env) (pid : Nat) (nowMs : Nat)
    (id : Nat) (st : SState) : SState × Except String Unit :=
  let r := startChannelS pm env id pid nowMs st
  (r.1, r.2.2)

/-- Per-id operation used by `BatchStopChannels`. -/
def batchStopOp (id : Nat) (st : SState) : SState × Except String Unit :=
  let r := stopChannelS id st
  (r.1, r.2.2)

/-- Per-id operation used by `BatchRestartChannels`. -/
def batchRestartOp (pm : PMConst) (env : Env) (pid : Nat) (nowMs : Nat)
    (id : Nat) (st : SState) : SState × Except String Unit :=
  let r := restartChannelS pm env id pid nowMs st
  (r.1, r.2.2)

/-- Per-id operation used by `BatchDeleteChannels`. -/
def batchDeleteOp (id : Nat) (st : SState) : SState × Except String Unit :=
  let r := deleteChannelS id st
  (r.1, r.2.2)

/-- The `application.Settings` struct (system settings as the service
exposes them). -/
structure SettingsS where
  maxChannels : Int
  segmentTime : Int
  playlistSize : Int
  logRetention : Int
  defaultPreset : String
  defaultBitrate : String
  defaultResolution : String
  defaultProfile : String
  defaultCRF : Int
  defaultMaxrate : String
  defaultBufsize : String
deriving DecidableEq, Repr

/-- `SettingsService.GetSettings`: hard-coded defaults overlaid with whatever
the stored row provides (`none` stored row = repository error). -/
def getSettingsS (stored : Option SettingsDoc) : Except String SettingsS :=
  match stored with
  | none => Except.error "settings not found"
  | some db =>
    Except.ok
      { maxChannels := intOr db.maxChannels 80,
        segmentTime := intOr db.segmentTime 3,
        playlistSize := intOr db.playlistSize 6,
        logRetention := intOr db.logRetention 1,
        defaultPreset := (db.defaultPreset).getD "veryfast",
        defaultBitrate := (db.defaultBitrate).getD "3500k",
        defaultResolution := (db.defaultResolution).getD "1920x1080",
        defaultProfile := (db.defaultProfile).getD "high",
        defaultCRF := intOr db.defaultCRF 23,
        defaultMaxrate := (db.defaultMaxrate).getD "3800k",
        defaultBufsize := (db.defaultBufsize).getD "7600k" }

/-- `SettingsService.CheckRunningChannels`: error when any persisted channel
row has status `running`. -/
def checkRunningChannels (channels : List Channel) : Except String Unit :=
  if channels.any (fun c => c.status = ChannelStatus.running) then
    Except.error "aktif yayın var, ayarlar güncellenemez"
  else Except.ok ()

/-- The `UpdateSettingsRequest` payload: optional per-field updates. -/
structure UpdateSettingsRequest where
  maxChannels : Option Int
  segmentTime : Option Int
  playlistSize : Option Int
  logRetention : Option Int
  defaultPreset : Option String
  defaultBitrate : Option String
  defaultResolution : Option String
  defaultProfile : Option String
  defaultCRF : Option Int
  defaultMaxrate : Option String
  defaultBufsize : Option String
deriving DecidableEq, Repr

/-- The field-by-field validation and overlay inside
`SettingsService.UpdateSettings`. -/
def applySettingsReq (req : UpdateSettingsRequest) (current : SettingsS) :
    Except String SettingsS := do
  let s ← match req.maxChannels with
    | some v =>
      if v < 1 ∨ v > 1000 then throw "maksimum kanal sayisi 1-1000 arasinda olmalidir"
      else pure { current with maxChannels := v }
    | none => pure current
  let s ← match req.segmentTime with
    | some v =>
      if v < 1 ∨ v > 30 then throw "segment suresi 1-30 saniye arasinda olmalidir"
      else pure { s with segmentTime := v }
    | none => pure s
  let s ← match req.playlistSize with
    | some v =>
      if v < 1 ∨ v > 100 then throw "playlist boyutu 1-100 arasinda olmalidir"
      else pure { s with playlistSize := v }
    | none => pure s
  let s ← match req.logRetention with
    | some v =>
      if v < 1 ∨ v > 365 then throw "log saklama suresi 1-365 gun arasinda olmalidir"
      else pure { s with logRetention := v }
    | none => pure s
  let s ← match req.defaultPreset with
    | some v =>
      if ["ultrafast", "superfast", "veryfast", "faster", "fast", "medium",
          "slow", "slower", "veryslow"].contains v then
        pure { s with defaultPreset := v }
      else throw ("gecersiz preset: " ++ v)
    | none => pure s
  let s ← match req.defaultBitrate with
    | some v => pure { s with defaultBitrate := v }
    | none => pure s
  let s ← match req.defaultResolution with
    | some v => pure { s with defaultResolution := v }
    | none => pure s
  let s ← match req.defaultProfile with
    | some v =>
      if ["baseline", "main", "high"].contains v then
        pure { s with defaultProfile := v }
      else throw ("gecersiz profil: " ++ v)
    | none => pure s
  let s ← match req.defaultCRF with
    | some v =>
      if v < 0 ∨ v > 51 then throw "CRF degeri 0-51 arasinda olmalidir"
      else pure { s with defaultCRF := v }
    | none => pure s
  let s ← match req.defaultMaxrate with
    | some v => pure { s with defaultMaxrate := v }
    | none => pure s
  match req.defaultBufsize with
  | some v => pure { s with defaultBufsize := v }
  | none => pure s

/-- The settings map written back by `UpdateSettings` (every key present). -/
def settingsToDoc (s : SettingsS) : SettingsDoc :=
  { maxChannels := some s.maxChannels, segmentTime := some s.segmentTime,
    playlistSize := some s.playlistSize, logRetention := some s.logRetention,
    defaultCRF := some s.defaultCRF, threadsPerProcess := none,
    defaultPreset := some s.defaultPreset, defaultBitrate := some s.defaultBitrate,
    defaultResolution := some s.defaultResolution,
    defaultProfile := some s.defaultProfile,
    defaultMaxrate := some s.defaultMaxrate,
    defaultBufsize := some s.defaultBufsize }

/-- `SettingsService.UpdateSettings`: refuse while any channel row is
`running`; read current settings; validate and overlay the requested fields;
write the full document back. -/
def updateSettingsS (req : UpdateSettingsRequest) (channels : List Channel)
    (stored : Option SettingsDoc) : Except String (SettingsS × SettingsDoc) := do
  let _ ← checkRunningChannels channels
  let current ← getSettingsS stored
  let final ← applySettingsReq req current
  pure (final, settingsToDoc final)

/-- State the settings HTTP handler acts on: the persisted channel rows and
the stored `system` settings row. -/
structure SettingsState where
  channels : List Channel
  stored : Option SettingsDoc
deriving DecidableEq, Repr

/-- `SettingsHandler.Update`: 409 (and no write) when any channel is running;
500 (and no write) when the service errors; 200 with the new document
persisted otherwise.  Returns the HTTP status and the resulting state. -/
def settingsHandlerUpdate (req : UpdateSettingsRequest) (st : SettingsState) :
    Nat × SettingsState :=
  match checkRunningChannels st.channels with
  | Except.error _ => (409, st)
  | Except.ok _ =>
    match updateSettingsS req st.channels st.stored with
    | Except.error _ => (500, st)
    | Except.ok r => (200, { st with stored := some r.2 })

/-- User roles, from `domain.UserRole`. -/
inductive UserRole
  | admin
  | operator
  | viewer
deriving DecidableEq, Repr

/-- The `roleHierarchy` map of `RequireRole` (viewer 1, operator 2, admin 3). -/
def roleHierarchy : UserRole → Nat
  | UserRole.viewer => 1
  | UserRole.operator => 2
  | UserRole.admin => 3

/-- `AuthMiddleware.Authenticate`: 401 on a missing header, on a header
without the `Bearer ` scheme (`TrimPrefix` left it unchanged), or on an
invalid/expired token; otherwise the token's role flows to the handlers.
`validate` is the JWT validation oracle. -/
def authenticate (validate : String → Option UserRole) (authHeader : String) :
    Except Nat UserRole :=
  if authHeader = "" then Except.error 401
  else
    let token := trimPrefixStr authHeader "Bearer "
    if token = authHeader then Except.error 401
    else
      match validate token with
      | none => Except.error 401
      | some r => Except.ok r

/-- `AuthMiddleware.RequireRole`: 401 when no role was stored by
`Authenticate`, 403 when the caller's role ranks below the required one. -/
def requireRole (required : UserRole) (role : Option UserRole) :
    Except Nat Unit :=
  match role with
  | none => Except.error 401
  | some r =>
    if roleHierarchy r < roleHierarchy required then Except.error 403
    else Except.ok ()

/-- The authenticated routes that `SetupRoutes` registers under `/api/v1`. -/
inductive Route
  | channelsList
  | channelsMetricsAll
  | channelGet
  | channelMetrics
  | channelLogs
  | channelCreate
  | channelUpdate
  | channelStart
  | channelStop
  | channelRestart
  | channelDelete
  | batchStart
  | batchStop
  | batchRestart
  | batchDelete
  | uploadLogo
  | uploadDeleteLogo
  | settingsGet
  | settingsUpdate
  | systemInfo
  | authMe
deriving DecidableEq, Repr

/-- The `RequireRole` middleware attached to each route in `SetupRoutes`
(`none` = any authenticated user). -/
def routeMinRole : Route → Option UserRole
  | Route.channelsList => none
  | Route.channelsMetricsAll => none
  | Route.channelGet => none
  | Route.channelMetrics => none
  | Route.channelLogs => none
  | Route.channelCreate => some UserRole.operator
  | Route.channelUpdate => some UserRole.operator
  | Route.channelStart => some UserRole.operator
  | Route.channelStop => some UserRole.operator
  | Route.channelRestart => some UserRole.operator
  | Route.channelDelete => some UserRole.admin
  | Route.batchStart => some UserRole.operator
  | Route.batchStop => some UserRole.operator
  | Route.batchRestart => some UserRole.operator
  | Route.batchDelete => some UserRole.admin
  | Route.uploadLogo => some UserRole.operator
  | Route.uploadDeleteLogo => some UserRole.operator
  | Route.settingsGet => some UserRole.admin
  | Route.settingsUpdate => some UserRole.admin
  | Route.systemInfo => none
  | Route.authMe => none

/-- Routes that only read state (every GET of the protected surface). -/
def isReadRoute : Route → Bool
  | Route.channelsList => true
  | Route.channelsMetricsAll => true
  | Route.channelGet => true
  | Route.channelMetrics => true
  | Route.channelLogs => true
  | Route.settingsGet => true
  | Route.systemInfo => true
  | Route.authMe => true
  | _ => false

/-- The middleware chain of a protected route: `Authenticate`, then the
route's `RequireRole` (if any), then the handler.  Returns the HTTP status
the chain decides: 401/403 from the middleware, 200 standing for "request
reached the handler". -/
def dispatch (validate : String → Option UserRole) (authHeader : String)
    (r : Route) : Nat :=
  match authenticate validate authHeader with
  | Except.error c => c
  | Except.ok role =>
    match routeMinRole r with
    | none => 200
    | some required =>
      match requireRole required (some role) with
      | Except.error c => c
      | Except.ok _ => 200

/-- The operations that mutate the supervisor's process table, each of which
takes the table mutex: Start, Stop, Restart, and the watcher's exit handling. -/
inductive MOp
  | opStart (pm : PMConst) (env : Env) (ch : Channel) (pid : Nat) (nowMs : Nat)
  | opStop (id : Nat)
  | opRestart (pm : PMConst) (env : Env) (id : Nat) (pid : Nat) (nowMs : Nat)
  | opWatch (pm : PMConst) (env : Env) (p : Proc) (uptimeSec : Nat)
      (pid : Nat) (nowMs : Nat) (intervening : List ExtOp)

/-- State transition of the process manager under one operation. -/
def mstep (st : MState) : MOp → MState
  | MOp.opStart pm env ch pid now => (startM pm env ch pid now st).1
  | MOp.opStop id => (stopM id st).1
  | MOp.opRestart pm env id pid now => (restartM pm env id pid now st).1
  | MOp.opWatch pm env p u pid now iv => (watchProcessM pm env st p u pid now iv).1

/-- Manager states reachable from a fresh `ProcessManager` by any sequence of
operations. -/
inductive ReachableM : MState → Prop
  | init (numaNodes : Nat) : ReachableM (MState.initial numaNodes)
  | step (st : MState) (op : MOp) : ReachableM st → ReachableM (mstep st op)

/-- The process-table key invariant: channel ids are pairwise distinct. -/
def keysNodup (st : MState) : Prop :=
  (st.processes.map Prod.fst).Nodup

theorem lookupP_eq_none_iff (id : Nat) (l : List (Nat × Proc)) :
    lookupP id l = none ↔ id ∉ l.map Prod.fst := by
  induction l with
  | nil => simp [lookupP]
  | cons kv rest ih =>
    simp only [lookupP, List.map_cons, List.mem_cons]
    by_cases h : kv.1 = id
    · subst h
      simp
    · simp only [if_neg h, ih]
      constructor
      · intro hn hmem
        rcases hmem with h1 | h2
        · exact h h1.symm
        · exact hn h2
      · intro hn hm
        exact hn (Or.inr hm)

theorem removeP_keys_sublist (id : Nat) (l : List (Nat × Proc)) :
    ((removeP id l).map Prod.fst).Sublist (l.map Prod.fst) :=
  (List.filter_sublist l).map Prod.fst

theorem keysNodup_removeP {l : List (Nat × Proc)} (h : (l.map Prod.fst).Nodup)
    (id : Nat) : ((removeP id l).map Prod.fst).Nodup :=
  h.sublist (removeP_keys_sublist id l)

theorem getNextNUMANode_processes (st : MState) :
    (getNextNUMANode st).2.processes = st.processes := by
  unfold getNextNUMANode
  split <;> rfl

theorem numaSelect_processes (env : Env) (st : MState) :
    (numaSelect env st).processes = st.processes := by
  unfold numaSelect
  split
  · exact getNextNUMANode_processes st
  · rfl

theorem startM_processes_cases (pm : PMConst) (env : Env) (ch : Channel)
    (pid nowMs : Nat) (st : MState) :
    (startM pm env ch pid nowMs st).1.processes = st.processes ∨
    (lookupP ch.id st.processes = none ∧
      (startM pm env ch pid nowMs st).1.processes =
        (ch.id, newProc ch pid nowMs) :: st.processes) := by
  unfold startM
  split
  · exact Or.inl rfl
  next he =>
    have hn : lookupP ch.id st.processes = none := by
      cases hl : lookupP ch.id st.processes with
      | none => rfl
      | some q => exact absurd (by rw [hl]; rfl) he
    split
    · exact Or.inl rfl
    · unfold startSpawn
      split
      · exact Or.inr ⟨hn, by simp [numaSelect_processes]⟩
      · exact Or.inl (numaSelect_processes env st)

theorem keysNodup_startM (pm : PMConst) (env : Env) (ch : Channel)
    (pid nowMs : Nat) {st : MState} (h : keysNodup st) :
    keysNodup (startM pm env ch pid nowMs st).1 := by
  rcases startM_processes_cases pm env ch pid nowMs st with hc | ⟨hn, hc⟩
  · unfold keysNodup
    rw [hc]
    exact h
  · unfold keysNodup
    rw [hc]
    simp only [List.map_cons, List.nodup_cons]
    exact ⟨(lookupP_eq_none_iff ch.id st.processes).mp hn, h⟩

theorem stopM_processes_cases (id : Nat) (st : MState) :
    (stopM id st).1.processes = st.processes ∨
    (stopM id st).1.processes = removeP id st.processes := by
  unfold stopM
  split
  · exact Or.inl rfl
  · exact Or.inr rfl

theorem keysNodup_stopM (id : Nat) {st : MState} (h : keysNodup st) :
    keysNodup (stopM id st).1 := by
  rcases stopM_processes_cases id st with hc | hc
  · unfold keysNodup
    rw [hc]
    exact h
  · unfold keysNodup
    rw [hc]
    exact keysNodup_removeP h id

theorem keysNodup_restartM (pm : PMConst) (env : Env) (id pid nowMs : Nat)
    {st : MState} (h : keysNodup st) :
    keysNodup (restartM pm env id pid nowMs st).1 := by
  unfold restartM
  split
  · exact h
  next p hl =>
    dsimp only
    split
    · exact keysNodup_stopM id h
    · exact keysNodup_startM pm env p.channel pid nowMs (keysNodup_stopM id h)

theorem keysNodup_applyExt (pm : PMConst) (env : Env) {st : MState}
    (h : keysNodup st) (op : ExtOp) : keysNodup (applyExt pm env st op) := by
  cases op with
  | extStart ch pid nowMs => exact keysNodup_startM pm env ch pid nowMs h
  | extStop id => exact keysNodup_stopM id h

theorem keysNodup_foldl_applyExt (pm : PMConst) (env : Env)
    (ops : List ExtOp) : ∀ st : MState, keysNodup st →
    keysNodup (ops.foldl (applyExt pm env) st) := by
  induction ops with
  | nil => intro st h; simpa using h
  | cons op rest ih =>
    intro st h
    exact ih _ (keysNodup_applyExt pm env h op)

theorem keysNodup_watchRestartStep (pm : PMConst) (env : Env) (p : Proc)
    (pid nowMs : Nat) {stMid : MState} (h : keysNodup stMid) :
    keysNodup (watchRestartStep pm env p pid nowMs stMid).1 := by
  unfold watchRestartStep
  split
  · exact h
  · dsimp only
    split
    · exact keysNodup_startM pm env p.channel pid nowMs h
    · exact keysNodup_startM pm env p.channel pid nowMs h

theorem keysNodup_watchProcessM (pm : PMConst) (env : Env) (p : Proc)
    (uptimeSec pid nowMs : Nat) (intervening : List ExtOp) {st : MState}
    (h : keysNodup st) :
    keysNodup (watchProcessM pm env st p uptimeSec pid nowMs intervening).1 := by
  unfold watchProcessM
  dsimp only
  have h1 : keysNodup { st with processes := removeP p.channelID st.processes } :=
    keysNodup_removeP h p.channelID
  have hif : keysNodup (if (lookupP p.channelID st.processes).isSome = true then
      { st with processes := removeP p.channelID st.processes } else st) := by
    split
    · exact h1
    · exact h
  split
  · exact hif
  · split
    · exact hif
    · split
      · exact keysNodup_watchRestartStep pm env p pid nowMs
          (keysNodup_foldl_applyExt pm env intervening _ hif)
      · exact hif

theorem keysNodup_initial (numaNodes : Nat) : keysNodup (MState.initial numaNodes) := by
  simp [keysNodup, MState.initial]

theorem keysNodup_reachable {st : MState} (h : ReachableM st) : keysNodup st := by
  induction h with
  | init numaNodes => exact keysNodup_initial numaNodes
  | step st op _ ih =>
    cases op with
    | opStart pm env ch pid now => exact keysNodup_startM pm env ch pid now ih
    | opStop id => exact keysNodup_stopM id ih
    | opRestart pm env id pid now => exact keysNodup_restartM pm env id pid now ih
    | opWatch pm env p u pid now iv =>
      exact keysNodup_watchProcessM pm env p u pid now iv ih

theorem lookupP_removeP_self (id : Nat) (l : List (Nat × Proc)) :
    lookupP id (removeP id l) = none := by
  rw [lookupP_eq_none_iff]
  intro hmem
  rcases List.mem_map.mp hmem with ⟨kv, hkv, hfst⟩
  have h2 := List.mem_filter.mp hkv
  have h3 : kv.1 ≠ id := by simpa using h2.2
  exact h3 hfst

/-- A concrete environment for evaluating the model: no GPU, no numactl, a
single NUMA node, spawns succeed, every file exists, the status callback is
wired (as `main.go` does), no settings row. -/
def envA : Env :=
  { settingsDb := none, fileExists := fun _ => true, nvidiaAvailable := false,
    numactlAvailable := false, spawnOk := true, callbackSet := true, numCPU := 8 }

/-- A concrete manager configuration. -/
def pmA : PMConst :=
  { config := { binaryPath := "/usr/bin/ffmpeg", segmentTime := 3,
                playlistSize := 6, defaultPreset := "veryfast",
                defaultBitrate := "3500k" },
    hlsPath := "/tmp/hls", logoPath := "/tmp/logos", maxThreadsPerProcess := 1 }

/-- A concrete channel with auto-restart enabled and no logo. -/
def chA : Channel :=
  { id := 7, name := "demo", sourceURL := "http://src/a.m3u8", logo := none,
    outputConfig := none, status := ChannelStatus.running, autoRestart := true }

/-- The live process the supervisor records when `chA` is started. -/
def procA : Proc := newProc chA 4242 1000

/-- A manager state in which `chA`'s child is alive and owned. -/
def stA : MState :=
  { processes := [(7, procA)], numaNodeCount := 1, numaNodeCounter := 0 }

/-- Claim C1 (auto-restart after a long-running crash).  The claim says: with
auto-restart enabled, a child exit after at least 10 s while the LiveProcess
is still in the table, and no Stop during the 2 s pause, the Watcher calls
Start again and spawns a new child.  The code does not: the watcher removes
the table entry itself, so its post-sleep re-check always finds the entry
absent and skips the restart.  This theorem evaluates `watchProcess` at such
an input (auto-restart on, 15 s uptime, entry present, nothing concurrent):
the result is a bare sleep-and-wipe; no new child is spawned and Start is
never invoked. -/
theorem claim_C1_watcher_skips_autorestart :
    watchProcessM pmA envA stA procA 15 4343 16000 [] =
      ({ processes := [], numaNodeCount := 1, numaNodeCounter := 0 },
       [Event.sleepMs 2000, Event.wipeDir 7]) ∧
    Event.spawn 7 ∉ (watchProcessM pmA envA stA procA 15 4343 16000 []).2 ∧
    procA.channel.autoRestart = true ∧
    (lookupP procA.channelID stA.processes).isSome = true := by
  refine ⟨by decide, by decide, rfl, rfl⟩

/-- Claim C2: when the child exits before 10 s of run time and the
LiveProcess is still in the table (no explicit stop), the watcher persists
status `stopped` (not `error`), wipes the output directory, and schedules no
restart — for any auto-restart flag, since the early-exit branch precedes
the auto-restart branch. -/
theorem claim_C2_early_exit_stops_without_restart (pm : PMConst) (env : Env)
    (st : MState) (p : Proc) (uptimeSec pid nowMs : Nat) (iv : List ExtOp)
    (hin : (lookupP p.channelID st.processes).isSome = true)
    (hu : uptimeSec < 10) (hcb : env.callbackSet = true) :
    watchProcessM pm env st p uptimeSec pid nowMs iv =
      ({ st with processes := removeP p.channelID st.processes },
       [Event.wipeDir p.channelID,
        Event.persistStatus p.channelID ChannelStatus.stopped]) ∧
    Event.spawn p.channelID ∉ (watchProcessM pm env st p uptimeSec pid nowMs iv).2 ∧
    Event.persistStatus p.channelID ChannelStatus.error ∉
      (watchProcessM pm env st p uptimeSec pid nowMs iv).2 ∧
    (lookupP p.channelID (watchProcessM pm env st p uptimeSec pid nowMs iv).1.processes)
      = none := by
  have heq : watchProcessM pm env st p uptimeSec pid nowMs iv =
      ({ st with processes := removeP p.channelID st.processes },
       [Event.wipeDir p.channelID,
        Event.persistStatus p.channelID ChannelStatus.stopped]) := by
    unfold watchProcessM
    simp [hin, hu, hcb]
  refine ⟨heq, ?_, ?_, ?_⟩
  · rw [heq]
    simp
  · rw [heq]
    simp
  · rw [heq]
    exact lookupP_removeP_self p.channelID st.processes

/-- Claim C2 witness: a concrete early exit (5 s) of `chA`'s child. -/
theorem claim_C2_witness :
    (lookupP procA.channelID stA.processes).isSome = true ∧ 5 < 10 ∧
    envA.callbackSet = true ∧
    watchProcessM pmA envA stA procA 5 4343 6000 [] =
      ({ stA with processes := removeP procA.channelID stA.processes },
       [Event.wipeDir procA.channelID,
        Event.persistStatus procA.channelID ChannelStatus.stopped]) :=
  ⟨rfl, by decide, rfl,
    (claim_C2_early_exit_stops_without_restart pmA envA stA procA 5 4343 6000 []
      rfl (by decide) rfl).1⟩

/-- Claim C3: in every reachable supervisor state the process table holds at
most one LiveProcess per channel id, and Start, executed under the lock,
rejects (leaving the state unchanged and returning the already-running
error) whenever an entry for the channel exists. -/
theorem claim_C3_at_most_one_liveprocess (st : MState) (h : ReachableM st) :
    (∀ id : Nat, st.processes.countP (fun kv => kv.1 == id) ≤ 1) ∧
    (∀ (pm : PMConst) (env : Env) (ch : Channel) (pid nowMs : Nat),
      (lookupP ch.id st.processes).isSome = true →
      (startM pm env ch pid nowMs st).1 = st ∧
      (startM pm env ch pid nowMs st).2.2 =
        Except.error ("channel " ++ toString ch.id ++ " is already running")) := by
  constructor
  · intro id
    have hn : (st.processes.map Prod.fst).Nodup := keysNodup_reachable h
    have hcount : st.processes.countP (fun kv => kv.1 == id) =
        (st.processes.map Prod.fst).count id := by
      rw [List.count, List.countP_map]
      rfl
    rw [hcount]
    exact List.nodup_iff_count_le_one.mp hn id
  · intro pm env ch pid nowMs hm
    unfold startM
    rw [if_pos hm]
    exact ⟨rfl, rfl⟩

/-- Claim C3 witness: after one successful Start of `chA` from the empty
table, the table has one entry for channel 7 and a second Start for the same
channel is rejected with the state unchanged. -/
theorem claim_C3_witness :
    ReachableM (mstep (MState.initial 1) (MOp.opStart pmA envA chA 4242 1000)) ∧
    (lookupP chA.id
      (mstep (MState.initial 1) (MOp.opStart pmA envA chA 4242 1000)).processes).isSome
      = true ∧
    (startM pmA envA chA 4343 2000
      (mstep (MState.initial 1) (MOp.opStart pmA envA chA 4242 1000))).1 =
      mstep (MState.initial 1) (MOp.opStart pmA envA chA 4242 1000) ∧
    (mstep (MState.initial 1) (MOp.opStart pmA envA chA 4242 1000)).processes.countP
      (fun kv => kv.1 == 7) ≤ 1 := by
  have hr : ReachableM (mstep (MState.initial 1) (MOp.opStart pmA envA chA 4242 1000)) :=
    ReachableM.step _ _ (ReachableM.init 1)
  have h := claim_C3_at_most_one_liveprocess _ hr
  have hs : (lookupP chA.id
      (mstep (MState.initial 1) (MOp.opStart pmA envA chA 4242 1000)).processes).isSome
      = true := by decide
  exact ⟨hr, hs, (h.2 pmA envA chA 4343 2000 hs).1, h.1 7⟩

theorem repoGetByID_updateStatus_self {id : Nat} {repo : List Channel}
    {ch : Channel} (h : repoGetByID id repo = some ch) (s : ChannelStatus) :
    repoGetByID id (repoUpdateStatus id s repo) = some { ch with status := s } := by
  induction repo with
  | nil => simp [repoGetByID] at h
  | cons c rest ih =>
    by_cases hc : c.id = id
    · unfold repoGetByID at h
      rw [List.find?_cons_of_pos _ (by simpa using hc)] at h
      cases h
      unfold repoUpdateStatus repoGetByID
      rw [List.map_cons, if_pos hc]
      exact List.find?_cons_of_pos _ (by simpa using hc)
    · unfold repoGetByID at h
      rw [List.find?_cons_of_neg _ (by simpa using hc)] at h
      unfold repoUpdateStatus repoGetByID at *
      rw [List.map_cons, if_neg hc]
      rw [List.find?_cons_of_neg _ (by simpa using hc)]
      exact ih h

/-- Claim C4: facade idempotence.  On an existing channel that is not
running, `StopChannel` succeeds and leaves persisted status `stopped` with
the transcoder untouched; on an existing channel that is already running,
`StartChannel` succeeds and leaves persisted status `running` without
touching the transcoder (no events, hence no second child spawned). -/
theorem claim_C4_lifecycle_idempotence (pm : PMConst) (env : Env)
    (id pid nowMs : Nat) (st : SState) (ch : Channel)
    (hch : repoGetByID id st.repo = some ch) :
    (isRunningM id st.mgr = false →
      (stopChannelS id st).2.2 = Except.ok () ∧
      repoGetByID id (stopChannelS id st).1.repo =
        some { ch with status := ChannelStatus.stopped } ∧
      (stopChannelS id st).1.mgr = st.mgr ∧
      (stopChannelS id st).2.1 = []) ∧
    (isRunningM id st.mgr = true →
      (startChannelS pm env id pid nowMs st).2.2 = Except.ok () ∧
      repoGetByID id (startChannelS pm env id pid nowMs st).1.repo =
        some { ch with status := ChannelStatus.running } ∧
      (startChannelS pm env id pid nowMs st).1.mgr = st.mgr ∧
      (startChannelS pm env id pid nowMs st).2.1 = []) := by
  constructor
  · intro hnr
    have heq : stopChannelS id st =
        ({ st with repo := repoUpdateStatus id ChannelStatus.stopped st.repo },
         [], Except.ok ()) := by
      unfold stopChannelS
      rw [hch]
      simp [hnr]
    rw [heq]
    exact ⟨rfl, repoGetByID_updateStatus_self hch ChannelStatus.stopped, rfl, rfl⟩
  · intro hr
    have heq : startChannelS pm env id pid nowMs st =
        ({ st with repo := repoUpdateStatus id ChannelStatus.running st.repo },
         [], Except.ok ()) := by
      unfold startChannelS
      rw [hch]
      simp [hr]
    rw [heq]
    exact ⟨rfl, repoGetByID_updateStatus_self hch ChannelStatus.running, rfl, rfl⟩

/-- A facade state where `chA` exists but is not running. -/
def stS0 : SState := { repo := [chA], mgr := MState.initial 1 }

/-- A facade state where `chA` exists and its child is live. -/
def stS1 : SState := { repo := [chA], mgr := stA }

/-- Claim C4 witness: Stop on the not-running `chA` succeeds and persists
`stopped`; Start on the running `chA` succeeds, persists `running`, and
leaves the process table untouched. -/
theorem claim_C4_witness :
    repoGetByID 7 stS0.repo = some chA ∧
    isRunningM 7 stS0.mgr = false ∧
    (stopChannelS 7 stS0).2.2 = Except.ok () ∧
    repoGetByID 7 (stopChannelS 7 stS0).1.repo =
      some { chA with status := ChannelStatus.stopped } ∧
    repoGetByID 7 stS1.repo = some chA ∧
    isRunningM 7 stS1.mgr = true ∧
    (startChannelS pmA envA 7 4343 2000 stS1).2.2 = Except.ok () ∧
    (startChannelS pmA envA 7 4343 2000 stS1).1.mgr = stS1.mgr := by
  have h0 := claim_C4_lifecycle_idempotence pmA envA 7 4343 2000 stS0 chA (by decide)
  have h1 := claim_C4_lifecycle_idempotence pmA envA 7 4343 2000 stS1 chA (by decide)
  have g0 := h0.1 (by decide)
  have g1 := h1.2 (by decide)
  exact ⟨by decide, by decide, g0.1, g0.2.1, by decide, by decide, g1.1, g1.2.2.1⟩

theorem jobStep_ids (f : Nat → SState → SState × Except String Unit)
    (comp : List Nat) :
    ∀ acc : SState × List (Nat × Except String Unit),
    ((comp.foldl (jobStep f) acc).2.map Prod.fst) = acc.2.map Prod.fst ++ comp := by
  induction comp with
  | nil => intro acc; simp
  | cons id rest ih =>
    intro acc
    rw [List.foldl_cons, ih]
    simp [jobStep]

theorem collectStep_foldl (results : List (Nat × Except String Unit)) :
    ∀ acc : BatchResult,
    ((results.foldl collectStep acc).success.length +
      (results.foldl collectStep acc).failed.length =
      acc.success.length + acc.failed.length + results.length) ∧
    (∀ id ∈ (results.foldl collectStep acc).success,
      id ∈ acc.success ∨ id ∈ results.map Prod.fst) ∧
    (∀ pr ∈ (results.foldl collectStep acc).failed,
      pr ∈ acc.failed ∨ pr.1 ∈ results.map Prod.fst) := by
  induction results with
  | nil =>
    intro acc
    refine ⟨by simp, ?_, ?_⟩
    · intro id hid
      exact Or.inl (by simpa using hid)
    · intro pr hpr
      exact Or.inl (by simpa using hpr)
  | cons jr rest ih =>
    intro acc
    rw [List.foldl_cons]
    have hstep : (collectStep acc jr).success.length + (collectStep acc jr).failed.length
        = acc.success.length + acc.failed.length + 1 := by
      unfold collectStep
      cases jr.2 <;> simp <;> omega
    refine ⟨?_, ?_, ?_⟩
    · rw [(ih (collectStep acc jr)).1, hstep]
      simp
      omega
    · intro id hid
      rcases (ih (collectStep acc jr)).2.1 id hid with h | h
      · unfold collectStep at h
        cases hj : jr.2 with
        | error e =>
          rw [hj] at h
          exact Or.inl h
        | ok u =>
          rw [hj] at h
          rcases List.mem_append.mp h with h1 | h1
          · exact Or.inl h1
          · refine Or.inr ?_
            simp only [List.map_cons, List.mem_cons]
            exact Or.inl (by simpa using h1)
      · refine Or.inr ?_
        simp only [List.map_cons, List.mem_cons]
        exact Or.inr h
    · intro pr hpr
      rcases (ih (collectStep acc jr)).2.2 pr hpr with h | h
      · unfold collectStep at h
        cases hj : jr.2 with
        | error e =>
          rw [hj] at h
          rcases List.mem_append.mp h with h1 | h1
          · exact Or.inl h1
          · refine Or.inr ?_
            simp only [List.map_cons, List.mem_cons]
            have : pr = (jr.1, e) := by simpa using h1
            exact Or.inl (by rw [this])
        | ok u =>
          rw [hj] at h
          exact Or.inl h
      · refine Or.inr ?_
        simp only [List.map_cons, List.mem_cons]
        exact Or.inr h

/-- Claim C5: for every batch operation run over any input id list, the
number of success ids plus the number of failed entries equals the input
length, and every id in the result (success or failed) comes from the input.
The worker pool's completion order `comp` is an arbitrary permutation of the
input ids (results arrive in completion order, not input order), and the
property holds for every such order and every per-channel operation,
covering batch start, stop, restart, and delete. -/
theorem claim_C5_batch_partition (f : Nat → SState → SState × Except String Unit)
    (ids comp : List Nat) (st : SState) (hperm : comp.Perm ids) :
    (batchProcessS f comp st).2.success.length +
      (batchProcessS f comp st).2.failed.length = ids.length ∧
    (∀ id ∈ (batchProcessS f comp st).2.success, id ∈ ids) ∧
    (∀ pr ∈ (batchProcessS f comp st).2.failed, pr.1 ∈ ids) := by
  have hids : ((comp.foldl (jobStep f) (st, [])).2.map Prod.fst) = comp := by
    simpa using jobStep_ids f comp (st, [])
  have hlen : (comp.foldl (jobStep f) (st, [])).2.length = comp.length := by
    have := congrArg List.length hids
    simpa using this
  have hcol := collectStep_foldl ((comp.foldl (jobStep f) (st, [])).2)
    { success := [], failed := [] }
  unfold batchProcessS collectResults
  dsimp only
  refine ⟨?_, ?_, ?_⟩
  · rw [hcol.1]
    simp [hlen, hperm.length_eq]
  · intro id hid
    rcases hcol.2.1 id hid with h | h
    · simp at h
    · rw [hids] at h
      exact hperm.mem_iff.mp h
  · intro pr hpr
    rcases hcol.2.2 pr hpr with h | h
    · simp at h
    · rw [hids] at h
      exact hperm.mem_iff.mp h

/-- Claim C5 witness: a batch stop over input ids [7, 9] completing in the
order [9, 7] against a state where 7 is running and 9 does not exist: one
success, one failure, totalling the input length. -/
theorem claim_C5_witness :
    ([9, 7] : List Nat).Perm [7, 9] ∧
    (batchProcessS batchStopOp [9, 7] stS1).2.success.length +
      (batchProcessS batchStopOp [9, 7] stS1).2.failed.length = 2 ∧
    (∀ id ∈ (batchProcessS batchStopOp [9, 7] stS1).2.success, id ∈ ([7, 9] : List Nat)) := by
  have hperm : ([9, 7] : List Nat).Perm [7, 9] := by decide
  have h := claim_C5_batch_partition batchStopOp [7, 9] [9, 7] stS1 hperm
  exact ⟨hperm, h.1, h.2.1⟩

/-- Claim C6: a settings update issued while at least one channel row has
status `running` is rejected with HTTP 409 and changes nothing: the handler
runs the running-channels check before any write, so the whole state
(including the stored settings document) is returned unchanged. -/
theorem claim_C6_settings_update_409 (req : UpdateSettingsRequest)
    (st : SettingsState) (c : Channel) (hc : c ∈ st.channels)
    (hr : c.status = ChannelStatus.running) :
    settingsHandlerUpdate req st = (409, st) := by
  have hany : st.channels.any (fun c => c.status = ChannelStatus.running) = true :=
    List.any_eq_true.mpr ⟨c, hc, by simp [hr]⟩
  unfold settingsHandlerUpdate checkRunningChannels
  rw [if_pos hany]

/-- Claim C6 witness: with `chA` persisted as `running`, an update request
for segment time 4 returns 409 and the stored document is untouched. -/
theorem claim_C6_witness :
    chA ∈ ([chA] : List Channel) ∧ chA.status = ChannelStatus.running ∧
    settingsHandlerUpdate
      { maxChannels := none, segmentTime := some 4, playlistSize := none,
        logRetention := none, defaultPreset := none, defaultBitrate := none,
        defaultResolution := none, defaultProfile := none, defaultCRF := none,
        defaultMaxrate := none, defaultBufsize := none }
      { channels := [chA], stored := none } =
      (409, { channels := [chA], stored := none }) :=
  ⟨List.mem_singleton.mpr rfl, rfl,
    claim_C6_settings_update_409 _ _ chA (List.mem_singleton.mpr rfl) rfl⟩

theorem stopM_ok (id : Nat) (m : MState) : (stopM id m).2.2 = Except.ok () := by
  unfold stopM
  split <;> rfl

theorem stopChannelS_ok_of_running {id : Nat} {st : SState} {ch : Channel}
    (hch : repoGetByID id st.repo = some ch)
    (hr : isRunningM id st.mgr = true) :
    (stopChannelS id st).2.2 = Except.ok () := by
  unfold stopChannelS
  rw [hch]
  simp only [hr, Bool.not_true, Bool.false_eq_true, if_false]
  rw [stopM_ok]

/-- Claim C7 counterexample: the claim says Restart is Stop-then-Start with a
1-second delay and degenerates to a plain Start on a not-running channel.
The operation that degenerates — the facade's `RestartChannel` — pauses
500 ms, not 1 s: on a concrete running channel its trace contains a 500 ms
sleep and no 1 s sleep.  (The supervisor-level `Restart` does pause 1 s, but
it rejects a not-running channel instead of degenerating.) -/
theorem claim_C7_counterexample :
    Event.sleepMs 1000 ∉ (restartChannelS pmA envA 7 4343 2000 stS1).2.1 ∧
    Event.sleepMs 500 ∈ (restartChannelS pmA envA 7 4343 2000 stS1).2.1 ∧
    restartM pmA envA 9 4343 2000 (MState.initial 1) =
      (MState.initial 1, [],
       Except.error "channel 9 is not running") := by
  refine ⟨by decide, by decide, by rfl⟩

/-- Claim C7 amended: the facade's Restart on an existing channel is Stop
followed by a 500 ms pause followed by Start when the channel was running,
and degenerates to a plain Start when it was not; the supervisor's Restart
pauses 1 s between Stop and Start but fails with a not-running error instead
of degenerating. -/
theorem claim_C7_restart_decomposition (pm : PMConst) (env : Env)
    (id pid nowMs : Nat) (st : SState) (ch : Channel)
    (hch : repoGetByID id st.repo = some ch) :
    (isRunningM id st.mgr = false →
      restartChannelS pm env id pid nowMs st = startChannelS pm env id pid nowMs st) ∧
    (isRunningM id st.mgr = true →
      restartChannelS pm env id pid nowMs st =
        ((startChannelS pm env id pid nowMs (stopChannelS id st).1).1,
         (stopChannelS id st).2.1 ++ [Event.sleepMs 500] ++
           (startChannelS pm env id pid nowMs (stopChannelS id st).1).2.1,
         (startChannelS pm env id pid nowMs (stopChannelS id st).1).2.2)) ∧
    (∀ stm : MState, lookupP id stm.processes = none →
      restartM pm env id pid nowMs stm =
        (stm, [], Except.error ("channel " ++ toString id ++ " is not running"))) := by
  refine ⟨?_, ?_, ?_⟩
  · intro hnr
    unfold restartChannelS
    rw [hch]
    simp [hnr]
  · intro hr
    have hok := stopChannelS_ok_of_running hch hr
    unfold restartChannelS
    rw [hch]
    simp only [hr, if_true]
    rw [hok]
  · intro stm hnone
    unfold restartM
    rw [hnone]

theorem repoGetByID_id {id : Nat} {repo : List Channel} {ch : Channel}
    (h : repoGetByID id repo = some ch) : ch.id = id := by
  have := List.find?_some h
  simpa using this

theorem startM_fail_no_insert {pm : PMConst} {env : Env} {ch : Channel}
    (pid nowMs : Nat) {m : MState}
    (hnone : (lookupP ch.id m.processes).isSome = false)
    (hfail : (∃ e, buildArgs pm env ch (outputDirOf pm.hlsPath ch.id)
        m.processes.length = Except.error e) ∨ env.spawnOk = false) :
    (∃ e, (startM pm env ch pid nowMs m).2.2 = Except.error e) ∧
    (startM pm env ch pid nowMs m).1.processes = m.processes ∧
    (∀ i, Event.spawn i ∉ (startM pm env ch pid nowMs m).2.1) := by
  unfold startM
  simp only [hnone, Bool.false_eq_true, if_false]
  rcases hfail with ⟨e, hb⟩ | hs
  · rw [hb]
    refine ⟨⟨"failed to build FFmpeg args: " ++ e, rfl⟩, rfl, ?_⟩
    intro i
    simp
  · cases hb : buildArgs pm env ch (outputDirOf pm.hlsPath ch.id) m.processes.length with
    | error e =>
      refine ⟨⟨"failed to build FFmpeg args: " ++ e, rfl⟩, rfl, ?_⟩
      intro i
      simp
    | ok args =>
      unfold startSpawn
      simp only [hs, Bool.false_eq_true, if_false]
      refine ⟨⟨"failed to start FFmpeg", rfl⟩, numaSelect_processes env m, ?_⟩
      intro i
      simp

/-- Claim C8: when Start's spawn fails — the argument builder errors (for
instance on a missing logo) or the process cannot be started (binary
missing, permission denied) — the supervisor leaves no entry in its process
table, the facade persists channel status `error`, and the error is returned
to the caller.  The final conjunct is the missing-logo case in isolation:
`buildArgs` (a pure function, performing no filesystem mutation) returns the
deterministic `logo file not found` error for the resolved path. -/
theorem claim_C8_spawn_failure_error_path (pm : PMConst) (env : Env)
    (id pid nowMs : Nat) (st : SState) (ch : Channel)
    (hch : repoGetByID id st.repo = some ch)
    (hnr : isRunningM id st.mgr = false)
    (hfail : (∃ e, buildArgs pm env ch (outputDirOf pm.hlsPath ch.id)
        st.mgr.processes.length = Except.error e) ∨ env.spawnOk = false) :
    (∃ e, (startChannelS pm env id pid nowMs st).2.2 = Except.error e) ∧
    (startChannelS pm env id pid nowMs st).1.mgr.processes = st.mgr.processes ∧
    repoGetByID id (startChannelS pm env id pid nowMs st).1.repo =
      some { ch with status := ChannelStatus.error } ∧
    (∀ i, Event.spawn i ∉ (startChannelS pm env id pid nowMs st).2.1) ∧
    (∀ (l : LogoConfig) (n : Nat), ch.logo = some l → l.path ≠ "" →
      env.fileExists (resolveLogoPath pm l) = false →
      buildArgs pm env ch (outputDirOf pm.hlsPath ch.id) n =
        Except.error ("logo file not found: " ++ resolveLogoPath pm l)) := by
  have hid : ch.id = id := repoGetByID_id hch
  have hnone : (lookupP ch.id st.mgr.processes).isSome = false := by
    rw [hid]
    exact hnr
  obtain ⟨⟨e, he⟩, hproc, hnospawn⟩ := startM_fail_no_insert pid nowMs hnone hfail
  have hsS : startChannelS pm env id pid nowMs st =
      ({ repo := repoUpdateStatus id ChannelStatus.error
           (repoUpdateStatus id ChannelStatus.starting st.repo),
         mgr := (startM pm env ch pid nowMs st.mgr).1 },
       (startM pm env ch pid nowMs st.mgr).2.1, Except.error e) := by
    unfold startChannelS
    rw [hch]
    simp only [hnr, Bool.false_eq_true, if_false]
    rw [he]
  refine ⟨⟨e, by rw [hsS]⟩, ?_, ?_, ?_, ?_⟩
  · rw [hsS]
    exact hproc
  · rw [hsS]
    exact repoGetByID_updateStatus_self
      (repoGetByID_updateStatus_self hch ChannelStatus.starting) ChannelStatus.error
  · intro i
    rw [hsS]
    exact hnospawn i
  · intro l n hlogo hpath hfe
    unfold buildArgs
    simp only [hlogo, hpath, hfe, ne_eq, not_false_eq_true, if_true,
      Bool.false_eq_true, if_false]

/-- Claim C7 witness: the amended statement evaluated on the not-running
`chA` (Restart equals a plain Start) and on an empty manager table (the
supervisor-level Restart errors). -/
theorem claim_C7_witness :
    repoGetByID 7 stS0.repo = some chA ∧
    isRunningM 7 stS0.mgr = false ∧
    restartChannelS pmA envA 7 4343 2000 stS0 = startChannelS pmA envA 7 4343 2000 stS0 ∧
    lookupP 7 (MState.initial 1).processes = none ∧
    restartM pmA envA 7 4343 2000 (MState.initial 1) =
      (MState.initial 1, [], Except.error ("channel " ++ toString 7 ++ " is not running")) := by
  have h := claim_C7_restart_decomposition pmA envA 7 4343 2000 stS0 chA (by decide)
  exact ⟨by decide, by decide, h.1 (by decide), by decide, h.2.2 (MState.initial 1) (by decide)⟩

/-- A logo overlay configuration pointing at a file that does not exist. -/
def logoL : LogoConfig :=
  { path := "missing.png", x := 10, y := 10, width := 100, height := 50,
    opacityStr := "0.800000" }

/-- A channel configured with the missing logo. -/
def chL : Channel :=
  { id := 8, name := "logo-demo", sourceURL := "http://src/b.m3u8",
    logo := some logoL, outputConfig := none,
    status := ChannelStatus.stopped, autoRestart := false }

/-- An environment in which no file exists (the logo check fails). -/
def envL : Env :=
  { settingsDb := none, fileExists := fun _ => false, nvidiaAvailable := false,
    numactlAvailable := false, spawnOk := true, callbackSet := true, numCPU := 8 }

/-- The facade state holding only the missing-logo channel, nothing running. -/
def stS2 : SState := { repo := [chL], mgr := MState.initial 1 }

/-- Claim C8 witness: starting the channel whose logo file is absent fails
deterministically, leaves the process table empty, and persists `error`. -/
theorem claim_C8_witness :
    repoGetByID 8 stS2.repo = some chL ∧
    isRunningM 8 stS2.mgr = false ∧
    buildArgs pmA envL chL (outputDirOf pmA.hlsPath chL.id) 0 =
      Except.error ("logo file not found: " ++ resolveLogoPath pmA logoL) ∧
    (∃ e, (startChannelS pmA envL 8 4343 2000 stS2).2.2 = Except.error e) ∧
    (startChannelS pmA envL 8 4343 2000 stS2).1.mgr.processes = stS2.mgr.processes ∧
    repoGetByID 8 (startChannelS pmA envL 8 4343 2000 stS2).1.repo =
      some { chL with status := ChannelStatus.error } := by
  have h := claim_C8_spawn_failure_error_path pmA envL 8 4343 2000 stS2 chL
    (by decide) (by decide)
    (Or.inl ⟨"logo file not found: /tmp/logos/missing.png", by rfl⟩)
  exact ⟨by decide, by decide, h.2.2.2.2 logoL 0 rfl (by decide) rfl,
    h.1, h.2.1, h.2.2.1⟩

/-- A token validation oracle that accepts exactly one token, as a viewer. -/
def validateViewerTok : String → Option UserRole :=
  fun t => if t = "tok" then some UserRole.viewer else none

/-- Claim C9 counterexample: the claim says a viewer can read everything, but
`GET /settings` — a read — is registered behind `RequireRole(admin)`, so an
authenticated viewer requesting it receives 403, not a successful read. -/
theorem claim_C9_counterexample :
    isReadRoute Route.settingsGet = true ∧
    authenticate validateViewerTok "Bearer tok" = Except.ok UserRole.viewer ∧
    dispatch validateViewerTok "Bearer tok" Route.settingsGet = 403 := by
  refine ⟨rfl, by rfl, by decide⟩

/-- Role matrix following the spec's role-gating words, amended with the one
exception the code forces: reading settings also requires admin.  A viewer
can read everything else; an operator can additionally create/update
channels, run lifecycle operations (single and batch start/stop/restart) and
manage logo uploads; an admin can additionally delete channels (single and
batch) and read or write settings. -/
def specAllowedAmended (role : UserRole) (r : Route) : Bool :=
  match r with
  | Route.channelsList => true
  | Route.channelsMetricsAll => true
  | Route.channelGet => true
  | Route.channelMetrics => true
  | Route.channelLogs => true
  | Route.systemInfo => true
  | Route.authMe => true
  | Route.channelCreate => role = UserRole.operator ∨ role = UserRole.admin
  | Route.channelUpdate => role = UserRole.operator ∨ role = UserRole.admin
  | Route.channelStart => role = UserRole.operator ∨ role = UserRole.admin
  | Route.channelStop => role = UserRole.operator ∨ role = UserRole.admin
  | Route.channelRestart => role = UserRole.operator ∨ role = UserRole.admin
  | Route.batchStart => role = UserRole.operator ∨ role = UserRole.admin
  | Route.batchStop => role = UserRole.operator ∨ role = UserRole.admin
  | Route.batchRestart => role = UserRole.operator ∨ role = UserRole.admin
  | Route.uploadLogo => role = UserRole.operator ∨ role = UserRole.admin
  | Route.uploadDeleteLogo => role = UserRole.operator ∨ role = UserRole.admin
  | Route.channelDelete => role = UserRole.admin
  | Route.batchDelete => role = UserRole.admin
  | Route.settingsGet => role = UserRole.admin
  | Route.settingsUpdate => role = UserRole.admin

/-- Claim C9 amended: the route table realises exactly the amended role
matrix — an authenticated request reaches the handler iff the caller's role
is allowed by `specAllowedAmended` and receives 403 otherwise; every
authentication failure (missing header, non-bearer header, invalid token)
yields 401; and the amended matrix gives a viewer every read route except
settings. -/
theorem claim_C9_role_gating (validate : String → Option UserRole)
    (header : String) :
    (∀ (role : UserRole) (r : Route),
      authenticate validate header = Except.ok role →
      dispatch validate header r =
        if specAllowedAmended role r then 200 else 403) ∧
    (∀ (c : Nat) (r : Route),
      authenticate validate header = Except.error c →
      c = 401 ∧ dispatch validate header r = 401) ∧
    (∀ r : Route, isReadRoute r = true → r ≠ Route.settingsGet →
      specAllowedAmended UserRole.viewer r = true) := by
  refine ⟨?_, ?_, ?_⟩
  · intro role r hauth
    unfold dispatch
    rw [hauth]
    cases r <;> cases role <;> rfl
  · intro c r hauth
    have hc : c = 401 := by
      unfold authenticate at hauth
      by_cases h1 : header = ""
      · rw [if_pos h1] at hauth
        cases hauth
        rfl
      · rw [if_neg h1] at hauth
        by_cases h2 : trimPrefixStr header "Bearer " = header
        · rw [if_pos h2] at hauth
          cases hauth
          rfl
        · rw [if_neg h2] at hauth
          cases hv : validate (trimPrefixStr header "Bearer ") with
          | none =>
            rw [hv] at hauth
            cases hauth
            rfl
          | some role =>
            rw [hv] at hauth
            cases hauth
    refine ⟨hc, ?_⟩
    unfold dispatch
    rw [hauth, hc]
  · intro r hread hne
    cases r <;> first
      | rfl
      | exact absurd rfl hne
      | exact absurd hread (by decide)

/-- Claim C9 witness: concrete probes of the amended matrix — a viewer reads
the channel list (200) but cannot start a channel (403), and a bad token is
rejected with 401. -/
theorem claim_C9_witness :
    authenticate validateViewerTok "Bearer tok" = Except.ok UserRole.viewer ∧
    dispatch validateViewerTok "Bearer tok" Route.channelsList = 200 ∧
    dispatch validateViewerTok "Bearer tok" Route.channelStart = 403 ∧
    authenticate validateViewerTok "Bearer bogus" = Except.error 401 ∧
    dispatch validateViewerTok "Bearer bogus" Route.channelsList = 401 := by
  have hok : authenticate validateViewerTok "Bearer tok" = Except.ok UserRole.viewer := by
    rfl
  have hbad : authenticate validateViewerTok "Bearer bogus" = Except.error 401 := by
    rfl
  have h := claim_C9_role_gating validateViewerTok "Bearer tok"
  have h2 := claim_C9_role_gating validateViewerTok "Bearer bogus"
  refine ⟨hok, ?_, ?_, hbad, (h2.2.1 401 Route.channelsList hbad).2⟩
  · have := h.1 UserRole.viewer Route.channelsList hok
    simpa using this
  · have := h.1 UserRole.viewer Route.channelStart hok
    simpa using this

theorem getProcessStats_mem (stat : Option ProcStatSample) (vmRssKB : Option Int)
    (prev : Option (ProcStatSample × Rat)) (now : Rat) (numCPU : Nat) :
    (getProcessStats stat vmRssKB prev now numCPU).2.1 =
      (if (match vmRssKB with | some v => v * 1024 | none => (0 : Int)) = 0 then
        100 * 1024 * 1024
      else (match vmRssKB with | some v => v * 1024 | none => (0 : Int))) := rfl

/-- Claim C10: the metrics sampler substitutes the fixed 104857600-byte
(100 MiB) placeholder whenever the per-PID RSS read fails or yields zero, so
the memory usage reported by `GetProcess` and `GetAllProcesses` for a running
channel is never zero. -/
theorem claim_C10_memory_never_zero :
    (∀ (stat : Option ProcStatSample) (vmRssKB : Option Int)
       (prev : Option (ProcStatSample × Rat)) (now : Rat) (numCPU : Nat),
      (getProcessStats stat vmRssKB prev now numCPU).2.1 ≠ 0 ∧
      ((vmRssKB = none ∨ vmRssKB = some 0) →
        (getProcessStats stat vmRssKB prev now numCPU).2.1 = 104857600)) ∧
    (∀ (st : MState) (id : Nat) (p : Proc) (stat : Option ProcStatSample)
       (vmRssKB : Option Int) (now : Rat) (nowMs numCPU : Nat),
      lookupP id st.processes = some p →
      getProcessM st id stat vmRssKB now nowMs numCPU =
        Except.ok (processRecord id p stat vmRssKB now nowMs numCPU) ∧
      (processRecord id p stat vmRssKB now nowMs numCPU).memoryUsage ≠ 0) ∧
    (∀ (st : MState) (statOf : Nat → Option ProcStatSample)
       (vmRssOf : Nat → Option Int) (now : Rat) (nowMs numCPU : Nat)
       (r : TranscoderProcess),
      r ∈ getAllProcessesM st statOf vmRssOf now nowMs numCPU →
      r.memoryUsage ≠ 0) := by
  have hmem : ∀ (stat : Option ProcStatSample) (vmRssKB : Option Int)
      (prev : Option (ProcStatSample × Rat)) (now : Rat) (numCPU : Nat),
      (getProcessStats stat vmRssKB prev now numCPU).2.1 ≠ 0 ∧
      ((vmRssKB = none ∨ vmRssKB = some 0) →
        (getProcessStats stat vmRssKB prev now numCPU).2.1 = 104857600) := by
    intro stat vmRssKB prev now numCPU
    rw [getProcessStats_mem]
    cases vmRssKB with
    | none => exact ⟨by decide, fun _ => by norm_num⟩
    | some v =>
      by_cases hv : v * 1024 = 0
      · constructor
        · simp only [hv, if_pos rfl]
          decide
        · intro _
          simp only [hv, if_pos rfl]
          norm_num
      · constructor
        · simp only [if_neg hv]
          exact hv
        · intro hcase
          rcases hcase with h | h
          · cases h
          · cases h
            simp at hv
  have hrec : ∀ (id : Nat) (p : Proc) (stat : Option ProcStatSample)
      (vmRssKB : Option Int) (now : Rat) (nowMs numCPU : Nat),
      (processRecord id p stat vmRssKB now nowMs numCPU).memoryUsage ≠ 0 := by
    intro id p stat vmRssKB now nowMs numCPU
    have : (processRecord id p stat vmRssKB now nowMs numCPU).memoryUsage =
        (getProcessStats stat vmRssKB p.lastCPUStat now numCPU).2.1 := rfl
    rw [this]
    exact (hmem stat vmRssKB p.lastCPUStat now numCPU).1
  refine ⟨hmem, ?_, ?_⟩
  · intro st id p stat vmRssKB now nowMs numCPU hp
    constructor
    · unfold getProcessM
      rw [hp]
    · exact hrec id p stat vmRssKB now nowMs numCPU
  · intro st statOf vmRssOf now nowMs numCPU r hr
    rcases List.mem_map.mp hr with ⟨kv, _, hkv⟩
    rw [← hkv]
    exact hrec kv.1 kv.2 (statOf kv.1) (vmRssOf kv.1) now nowMs numCPU

/-- Claim C10 witness: for the running `chA` with a failed RSS read the
fetched metrics carry the 104857600-byte placeholder, and with RSS read as 0
the placeholder is substituted as well. -/
theorem claim_C10_witness :
    lookupP 7 stA.processes = some procA ∧
    getProcessM stA 7 none none 0 16000 8 =
      Except.ok (processRecord 7 procA none none 0 16000 8) ∧
    (processRecord 7 procA none none 0 16000 8).memoryUsage = 104857600 ∧
    (getProcessStats none (some 0) none 0 8).2.1 = 104857600 := by
  have h := claim_C10_memory_never_zero
  have hg := h.2.1 stA 7 procA none none 0 16000 8 (by decide)
  refine ⟨by decide, hg.1, ?_, (h.1 none (some 0) none 0 8).2 (Or.inr rfl)⟩
  have : (processRecord 7 procA none none 0 16000 8).memoryUsage =
      (getProcessStats none none procA.lastCPUStat 0 8).2.1 := rfl
  rw [this]
  exact (h.1 none none procA.lastCPUStat 0 8).2 (Or.inl rfl)

end Transcode
